import Mathlib

/-!
Verification development for the EpleShopperMania relay server
(`src/server.js`): an in-memory WebSocket hub keeping three JS `Map`s
(`players`, `socketToId`, `scores`) and routing inbound JSON frames.

JS `Map`s are embedded as association lists with insertion-order
semantics (`set` updates in place or appends, `delete` removes the
entry).  JS numeric coercion `Number(v)` is embedded as `Option ℚ`
(`none` stands for an absent field or a value whose coercion is `NaN`),
and the JS `||` fallback on numbers/strings is embedded by `numOr` /
`jsStrOr` (`0`, `NaN`, `""`, `null`/`undefined` are falsy).
-/

namespace EpleShopper

/-- Association-list embedding of a JS `Map`. -/
abbrev JMap (α β : Type) := List (α × β)

/-- `Map.get`. -/
def mapGet [DecidableEq α] : JMap α β → α → Option β
  | [], _ => none
  | (k, v) :: rest, a => if k = a then some v else mapGet rest a

/-- `Map.set`: replaces in place if the key is present, appends otherwise. -/
def mapSet [DecidableEq α] : JMap α β → α → β → JMap α β
  | [], a, b => [(a, b)]
  | (k, v) :: rest, a, b => if k = a then (a, b) :: rest else (k, v) :: mapSet rest a b

/-- `Map.delete`. -/
def mapDelete [DecidableEq α] : JMap α β → α → JMap α β
  | [], _ => []
  | (k, v) :: rest, a => if k = a then mapDelete rest a else (k, v) :: mapDelete rest a

/-- `Map.has`. -/
def mapHas [DecidableEq α] (m : JMap α β) (a : α) : Bool := (mapGet m a).isSome

/-- `Map.keys()`. -/
def mapKeys : JMap α β → List α
  | [] => []
  | (k, _) :: rest => k :: mapKeys rest

/-- `Map.values()`. -/
def mapValues : JMap α β → List β
  | [] => []
  | (_, v) :: rest => v :: mapValues rest

section MapLemmas

variable [DecidableEq α]

theorem mapGet_set_self (m : JMap α β) (k : α) (v : β) :
    mapGet (mapSet m k v) k = some v := by
  induction m with
  | nil => simp [mapGet, mapSet]
  | cons e rest ih =>
    obtain ⟨k', v'⟩ := e
    by_cases h : k' = k <;> simp [mapGet, mapSet, h, ih]

theorem mapGet_set_ne (m : JMap α β) (k a : α) (v : β) (h : a ≠ k) :
    mapGet (mapSet m k v) a = mapGet m a := by
  induction m with
  | nil =>
    simp only [mapSet, mapGet]
    rw [if_neg (fun hh => h hh.symm)]
  | cons e rest ih =>
    obtain ⟨k', v'⟩ := e
    simp only [mapSet]
    by_cases hk : k' = k
    · subst hk
      rw [if_pos rfl]
      simp only [mapGet]
      rw [if_neg (fun hh => h hh.symm), if_neg (fun hh => h hh.symm)]
    · rw [if_neg hk]
      simp only [mapGet]
      by_cases ha : k' = a
      · rw [if_pos ha, if_pos ha]
      · rw [if_neg ha, if_neg ha, ih]

theorem mapGet_none_iff (m : JMap α β) (a : α) :
    mapGet m a = none ↔ a ∉ mapKeys m := by
  induction m with
  | nil => simp [mapGet, mapKeys]
  | cons e rest ih =>
    obtain ⟨k, v⟩ := e
    simp only [mapGet, mapKeys, List.mem_cons]
    by_cases h : k = a
    · subst h
      simp
    · rw [if_neg h, ih]
      constructor
      · intro h1 h2
        rcases h2 with h2 | h2
        · exact h h2.symm
        · exact h1 h2
      · intro h1 h2
        exact h1 (Or.inr h2)

theorem mapGet_isSome_iff (m : JMap α β) (a : α) :
    (mapGet m a).isSome = true ↔ a ∈ mapKeys m := by
  rw [Option.isSome_iff_ne_none]
  constructor
  · intro h
    by_contra hmem
    exact h ((mapGet_none_iff m a).2 hmem)
  · intro h hnone
    exact ((mapGet_none_iff m a).1 hnone) h

theorem mapSet_absent (m : JMap α β) (k : α) (v : β) (h : mapGet m k = none) :
    mapSet m k v = m ++ [(k, v)] := by
  induction m with
  | nil => rfl
  | cons e rest ih =>
    obtain ⟨k', v'⟩ := e
    by_cases hk : k' = k
    · rw [mapGet, if_pos hk] at h
      exact absurd h (by simp)
    · rw [mapGet, if_neg hk] at h
      rw [mapSet, if_neg hk, ih h, List.cons_append]

theorem mem_mapKeys_set (m : JMap α β) (k a : α) (v : β) :
    a ∈ mapKeys (mapSet m k v) ↔ a ∈ mapKeys m ∨ a = k := by
  induction m with
  | nil => simp [mapSet, mapKeys]
  | cons e rest ih =>
    obtain ⟨k', v'⟩ := e
    by_cases hk : k' = k
    · subst hk
      simp only [mapSet, if_pos rfl, mapKeys, List.mem_cons]
      tauto
    · simp only [mapSet, if_neg hk, mapKeys, List.mem_cons]
      rw [ih]
      tauto

omit [DecidableEq α] in
theorem mapKeys_append (m₁ m₂ : JMap α β) :
    mapKeys (m₁ ++ m₂) = mapKeys m₁ ++ mapKeys m₂ := by
  induction m₁ with
  | nil => rfl
  | cons e rest ih =>
    obtain ⟨k, v⟩ := e
    rw [List.cons_append, mapKeys, mapKeys, ih, List.cons_append]

omit [DecidableEq α] in
theorem mapValues_append (m₁ m₂ : JMap α β) :
    mapValues (m₁ ++ m₂) = mapValues m₁ ++ mapValues m₂ := by
  induction m₁ with
  | nil => rfl
  | cons e rest ih =>
    obtain ⟨k, v⟩ := e
    rw [List.cons_append, mapValues, mapValues, ih, List.cons_append]

theorem mapDelete_absent (m : JMap α β) (a : α) (h : mapGet m a = none) :
    mapDelete m a = m := by
  induction m with
  | nil => rfl
  | cons e rest ih =>
    obtain ⟨k, v⟩ := e
    by_cases hk : k = a
    · rw [mapGet, if_pos hk] at h
      exact absurd h (by simp)
    · rw [mapGet, if_neg hk] at h
      rw [mapDelete, if_neg hk, ih h]

theorem mapGet_delete_self (m : JMap α β) (a : α) :
    mapGet (mapDelete m a) a = none := by
  induction m with
  | nil => rfl
  | cons e rest ih =>
    obtain ⟨k, v⟩ := e
    by_cases hk : k = a
    · rw [mapDelete, if_pos hk]
      exact ih
    · rw [mapDelete, if_neg hk, mapGet, if_neg hk]
      exact ih

theorem mapGet_delete_ne (m : JMap α β) (a b : α) (h : b ≠ a) :
    mapGet (mapDelete m a) b = mapGet m b := by
  induction m with
  | nil => rfl
  | cons e rest ih =>
    obtain ⟨k, v⟩ := e
    by_cases hk : k = a
    · subst hk
      rw [mapDelete, if_pos rfl, ih]
      rw [mapGet, if_neg (fun hh => h hh.symm)]
    · rw [mapDelete, if_neg hk]
      simp only [mapGet]
      by_cases hb : k = b
      · rw [if_pos hb, if_pos hb]
      · rw [if_neg hb, if_neg hb, ih]

theorem mem_mapKeys_delete (m : JMap α β) (a b : α) :
    b ∈ mapKeys (mapDelete m a) ↔ b ∈ mapKeys m ∧ b ≠ a := by
  induction m with
  | nil => simp [mapDelete, mapKeys]
  | cons e rest ih =>
    obtain ⟨k, v⟩ := e
    by_cases hk : k = a
    · subst hk
      rw [mapDelete, if_pos rfl, ih, mapKeys, List.mem_cons]
      constructor
      · intro hmem
        exact ⟨Or.inr hmem.1, hmem.2⟩
      · rintro ⟨h1 | h1, h2⟩
        · exact absurd h1 h2
        · exact ⟨h1, h2⟩
    · rw [mapDelete, if_neg hk, mapKeys, mapKeys, List.mem_cons, List.mem_cons, ih]
      constructor
      · rintro (h1 | ⟨h1, h2⟩)
        · exact ⟨Or.inl h1, fun hh => hk (by rw [← h1, hh])⟩
        · exact ⟨Or.inr h1, h2⟩
      · rintro ⟨h1 | h1, h2⟩
        · exact Or.inl h1
        · exact Or.inr ⟨h1, h2⟩

theorem mapKeys_delete_sublist (m : JMap α β) (a : α) :
    (mapKeys (mapDelete m a)).Sublist (mapKeys m) := by
  induction m with
  | nil => simp [mapDelete, mapKeys]
  | cons e rest ih =>
    obtain ⟨k, v⟩ := e
    by_cases hk : k = a
    · rw [mapDelete, if_pos hk, mapKeys]
      exact ih.cons k
    · rw [mapDelete, if_neg hk, mapKeys, mapKeys]
      exact ih.cons₂ k

theorem mapValues_delete_sublist (m : JMap α β) (a : α) :
    (mapValues (mapDelete m a)).Sublist (mapValues m) := by
  induction m with
  | nil => simp [mapDelete, mapValues]
  | cons e rest ih =>
    obtain ⟨k, v⟩ := e
    by_cases hk : k = a
    · rw [mapDelete, if_pos hk, mapValues]
      exact ih.cons v
    · rw [mapDelete, if_neg hk, mapValues, mapValues]
      exact ih.cons₂ v

theorem mem_mapValues_of_get (m : JMap α β) (a : α) (v : β)
    (h : mapGet m a = some v) : v ∈ mapValues m := by
  induction m with
  | nil => exact absurd h (by simp [mapGet])
  | cons e rest ih =>
    obtain ⟨k, w⟩ := e
    by_cases hk : k = a
    · rw [mapGet, if_pos hk, Option.some_inj] at h
      rw [mapValues, h]
      exact List.mem_cons_self _ _
    · rw [mapGet, if_neg hk] at h
      rw [mapValues]
      exact List.mem_cons_of_mem _ (ih h)

theorem mem_mapKeys_of_get (m : JMap α β) (a : α) (v : β)
    (h : mapGet m a = some v) : a ∈ mapKeys m := by
  by_contra hmem
  rw [(mapGet_none_iff m a).2 hmem] at h
  exact absurd h (by simp)

end MapLemmas

/-! ## JS value coercions -/

/-- `v || fb` for a JS numeric value `v` (embedded as `Option ℚ`, `none`
standing for `NaN` / absent): `NaN` and `0` are falsy. -/
def numOr (v : Option ℚ) (fb : ℚ) : ℚ :=
  match v with
  | none => fb
  | some q => if q = 0 then fb else q

/-- `v || fb` for a JS integer value. -/
def intOr (v : Option Int) (fb : Int) : Int :=
  match v with
  | none => fb
  | some n => if n = 0 then fb else n

/-- `s || fb` for a JS string value: `""` is falsy. -/
def jsStrOr (s : String) (fb : String) : String := if s = "" then fb else s

/-- JS `ToInt32` (the `| 0` coercion) on an integer-valued number. -/
def int32wrap (n : Int) : Int := (n + 2 ^ 31) % 2 ^ 32 - 2 ^ 31

/-- `(p.name || "Player").toString().slice(0, 20)`: the display-name
clamp used by the `join` and `name` cases (`none` = absent field). -/
def clampName (pname : Option String) : String :=
  (jsStrOr (pname.getD "") "Player").take 20

/-! ## Server state (`server.js` lines 64-70) -/

/-- One entry of the `players` map: `{x, z, name}`. -/
structure Player where
  x : ℚ
  z : ℚ
  pname : String
deriving DecidableEq

/-- The server's in-memory game state: the three JS `Map`s.  Sockets are
embedded as opaque `Nat` handles. -/
structure ServerState where
  players : JMap String Player
  socketToId : JMap Nat String
  scores : JMap String Int
deriving DecidableEq

/-- One entry of `snapshot().scores`. -/
structure ScoreView where
  sname : String
  score : Int
deriving DecidableEq

/-- `snapshot().players` (`server.js` line 76). -/
def snapshotPlayers (st : ServerState) : JMap String Player :=
  st.players.map (fun e => (e.1, ⟨e.2.x, e.2.z, jsStrOr e.2.pname "Player"⟩))

/-- `snapshot().scores` (`server.js` line 78): each score row is
annotated with the owning player's current name, defaulting to
`"Player"`, and the stored score passes through `| 0`. -/
def snapshotScores (st : ServerState) : JMap String ScoreView :=
  st.scores.map (fun e => (e.1,
    ⟨(match mapGet st.players e.1 with
      | none => "Player"
      | some p => jsStrOr p.pname "Player"),
     int32wrap e.2⟩))

/-- `bumpScore` (`server.js` line 92) with `delta = 1` at every call site:
`scores.set(id, (scores.get(id) || 0) + delta)`. -/
def bumpScore (scores : JMap String Int) (id : String) (delta : Int) : JMap String Int :=
  mapSet scores id (intOr (mapGet scores id) 0 + delta)

/-! ## Wire messages -/

/-- A parsed inbound frame, after `JSON.parse` and reading `msg.t` /
`msg.p`.  Numeric payload fields are the result of `Number(...)`
(`none` = absent or `NaN`); `idx` fields are `some` exactly when
`typeof p.idx === "number"`.  `other` covers every unrecognized `t`. -/
inductive Msg where
  | join (px pz : Option ℚ) (pn : Option String)
  | state (px pz : Option ℚ)
  | name (pn : Option String)
  | pickup (idx : Option Int)
  | shoot (idx : Option Int)
  | land (idx : Option Int)
  | score (pid : Option String) (idx : Option Int)
  | reset
  | other
deriving DecidableEq

/-- An outbound send recorded by a handler: each constructor mirrors one
`send`/`broadcast` call site, carrying the message type, its payload
fields and (for broadcasts) the `exceptId` argument. -/
inductive Out where
  | helloU (sock : Nat) (id : String)
  | snapshotU (sock : Nat) (pl : JMap String Player) (sc : JMap String ScoreView)
  | addB (id : String) (x z : ℚ) (nm : String) (except : Option String)
  | nameU (sock : Nat) (id : String) (nm : String)
  | stateB (id : String) (x z : ℚ) (except : Option String)
  | nameB (id : String) (nm : String) (except : Option String)
  | pickupB (id : String) (id2 : Int) (except : Option String)
  | shootB (id : String) (idx : Option Int) (except : Option String)
  | landB (idx : Option Int) (except : Option String)
  | scoreB (id : String) (nm : String) (idx : Option Int) (except : Option String)
  | resetB (except : Option String)
  | removeB (id : String) (except : Option String)
deriving DecidableEq

/-! ## The message handler (`server.js` lines 101-155) -/

/-- Target selection in the `score` case (`server.js` line 141):
`(p.id && players.has(p.id)) ? p.id : me`. -/
def scoreTarget (players : JMap String Player) (me : String) (pid : Option String) : String :=
  match pid with
  | none => me
  | some t => if t ≠ "" ∧ mapHas players t = true then t else me

/-- `players.get(scorer)?.name || "Player"` (`server.js` line 143). -/
def displayName (players : JMap String Player) (id : String) : String :=
  match mapGet players id with
  | none => "Player"
  | some p => jsStrOr p.pname "Player"

/-- The `switch (t)` body, for a socket already resolved to session id
`me` (`server.js` lines 106-154).  Returns the new state and the list of
sends/broadcasts issued, in order. -/
def handleParsed (st : ServerState) (sock : Nat) (me : String) : Msg → ServerState × List Out
  | .join px pz pn =>
    let x := numOr px 0
    let z := numOr pz 0
    let nm := clampName pn
    let players := mapSet st.players me ⟨x, z, nm⟩
    let scores := if mapHas st.scores me then st.scores else mapSet st.scores me 0
    (⟨players, st.socketToId, scores⟩,
      [Out.addB me x z nm (some me), Out.nameU sock me nm])
  | .state px pz =>
    match mapGet st.players me with
    | none => (st, [])
    | some r =>
      let nx := numOr px r.x
      let nz := numOr pz r.z
      (⟨mapSet st.players me ⟨nx, nz, r.pname⟩, st.socketToId, st.scores⟩,
        [Out.stateB me nx nz (some me)])
  | .name pn =>
    let nm := clampName pn
    let players :=
      match mapGet st.players me with
      | none => st.players
      | some r => mapSet st.players me ⟨r.x, r.z, nm⟩
    (⟨players, st.socketToId, st.scores⟩, [Out.nameB me nm none])
  | .pickup idx =>
    match idx with
    | some i => (st, [Out.pickupB me i (some me)])
    | none => (st, [])
  | .shoot idx =>
    match idx with
    | some _ => (st, [Out.shootB me idx (some me)])
    | none => (st, [])
  | .land idx =>
    match idx with
    | some _ => (st, [Out.landB idx (some me)])
    | none => (st, [])
  | .score pid idx =>
    let scorer := scoreTarget st.players me pid
    (⟨st.players, st.socketToId, bumpScore st.scores scorer 1⟩,
      [Out.scoreB scorer (displayName st.players scorer) idx none])
  | .reset =>
    let scores := (mapKeys st.players).foldl (fun m pid => mapSet m pid 0) ([] : JMap String Int)
    (⟨st.players, st.socketToId, scores⟩, [Out.resetB none])
  | .other => (st, [])

/-- `ws.on("message")` (`server.js` lines 101-155).  `frame = none` is a
buffer that fails `JSON.parse` (the `catch { return; }` path); otherwise
the socket is resolved through `socketToId` and dropped if absent or
falsy (`if (!me) return`). -/
def handleMsg (st : ServerState) (sock : Nat) (frame : Option Msg) : ServerState × List Out :=
  match frame with
  | none => (st, [])
  | some msg =>
    match mapGet st.socketToId sock with
    | none => (st, [])
    | some me => if me = "" then (st, []) else handleParsed st sock me msg

/-- `wss.on("connection")` (`server.js` lines 94-99): register a fresh id
and unicast `hello` plus a full `snapshot`. -/
def handleConnect (st : ServerState) (sock : Nat) (freshId : String) : ServerState × List Out :=
  let st2 : ServerState := ⟨st.players, mapSet st.socketToId sock freshId, st.scores⟩
  (st2, [Out.helloU sock freshId, Out.snapshotU sock (snapshotPlayers st2) (snapshotScores st2)])

/-- `ws.on("close")` (`server.js` lines 157-165): drop the socket
association, then purge Player and ScoreEntry and broadcast `remove`
only when `id && players.has(id)`. -/
def handleClose (st : ServerState) (sock : Nat) : ServerState × List Out :=
  let idOpt := mapGet st.socketToId sock
  let s2i := mapDelete st.socketToId sock
  match idOpt with
  | none => (⟨st.players, s2i, st.scores⟩, [])
  | some cid =>
    if cid ≠ "" ∧ mapHas st.players cid = true then
      (⟨mapDelete st.players cid, s2i, mapDelete st.scores cid⟩, [Out.removeB cid none])
    else
      (⟨st.players, s2i, st.scores⟩, [])

/-! ## Broadcast delivery (`server.js` lines 85-91) -/

/-- The skip test `exceptId && id === exceptId` (a `null` or `""`
`exceptId` is falsy, so nothing is skipped). -/
def skipsConn (exceptId : Option String) (cid : String) : Bool :=
  match exceptId with
  | none => false
  | some x => (!(x == "")) && cid == x

/-- `broadcast` delivery: the registry is the `socketToId` entry list
enriched with each socket's `readyState === OPEN` bit; `bytes` is the
message serialized once before the loop.  Returns the `(socket, bytes)`
writes in iteration order. -/
def broadcastTo (reg : List (Nat × String × Bool)) (exceptId : Option String)
    (bytes : String) : List (Nat × String) :=
  match reg with
  | [] => []
  | (h, cid, isOp) :: rest =>
    if skipsConn exceptId cid then broadcastTo rest exceptId bytes
    else if isOp then (h, bytes) :: broadcastTo rest exceptId bytes
    else broadcastTo rest exceptId bytes

/-! ## Event sequences -/

/-- A connection-level event: a new connection (with the id produced by
`newId()`), an inbound frame, or a transport close. -/
inductive Ev where
  | conn (sock : Nat) (id : String)
  | msg (sock : Nat) (frame : Option Msg)
  | close (sock : Nat)
deriving DecidableEq

/-- State transition of one event (outputs discarded). -/
def stepEv (st : ServerState) : Ev → ServerState
  | .conn s i => (handleConnect st s i).1
  | .msg s f => (handleMsg st s f).1
  | .close s => (handleClose st s).1

/-- Run a sequence of events. -/
def runEvs (st : ServerState) (es : List Ev) : ServerState := es.foldl stepEv st

/-- The empty boot state. -/
def initState : ServerState := ⟨[], [], []⟩

/-! ## Helper lemmas about the handlers -/

theorem intOr_zero (v : Option Int) : intOr v 0 = v.getD 0 := by
  cases v with
  | none => rfl
  | some n =>
    by_cases h : n = 0
    · simp [intOr, h]
    · simp [intOr, h]

theorem bumpScore_get_self (sc : JMap String Int) (id : String) :
    mapGet (bumpScore sc id 1) id = some ((mapGet sc id).getD 0 + 1) := by
  rw [bumpScore, mapGet_set_self, intOr_zero]

theorem broadcast_none (reg : List (Nat × String × Bool)) (bytes : String) :
    broadcastTo reg none bytes
      = (reg.filter (fun e => e.2.2)).map (fun e => (e.1, bytes)) := by
  induction reg with
  | nil => rfl
  | cons e rest ih =>
    obtain ⟨h, cid, isOp⟩ := e
    rw [broadcastTo]
    cases isOp <;> simp [skipsConn, ih, List.filter_cons]

theorem resetFold_get (ks : List String) (m : JMap String Int) (i : String) :
    mapGet (ks.foldl (fun acc k => mapSet acc k 0) m) i
      = if i ∈ ks then some 0 else mapGet m i := by
  induction ks generalizing m with
  | nil => simp
  | cons k rest ih =>
    rw [List.foldl_cons, ih]
    by_cases hi : i ∈ rest
    · simp [hi]
    · by_cases hik : i = k
      · subst hik
        simp [hi, mapGet_set_self]
      · simp [hi, hik, mapGet_set_ne m k i 0 hik]

theorem handleMsg_resolved (st : ServerState) (sock : Nat) (me : String) (msg : Msg)
    (h : mapGet st.socketToId sock = some me) (hme : me ≠ "") :
    handleMsg st sock (some msg) = handleParsed st sock me msg := by
  rw [handleMsg, h]
  simp [hme]

/-! ## C4 -/

/-- C4: an inbound frame whose bytes fail to parse as JSON is dropped
whole: the handler leaves the state untouched, sends nothing, broadcasts
nothing, and returns normally. -/
theorem malformed_frame_dropped (st : ServerState) (sock : Nat) :
    handleMsg st sock none = (st, []) := rfl

/-! ## C3 -/

/-- C3: `broadcast` with a (truthy) exclusion id `X` writes the
once-serialized bytes to exactly the registered connections that are
open and not registered under `X`; the `X` connection and all non-open
connections are silently skipped. -/
theorem broadcast_excludes (reg : List (Nat × String × Bool)) (X bytes : String)
    (hX : X ≠ "") :
    broadcastTo reg (some X) bytes
      = (reg.filter (fun e => !(e.2.1 == X) && e.2.2)).map (fun e => (e.1, bytes)) := by
  induction reg with
  | nil => rfl
  | cons e rest ih =>
    obtain ⟨h, cid, isOp⟩ := e
    rw [broadcastTo]
    by_cases hc : cid = X
    · subst hc
      simp [skipsConn, hX, ih, List.filter_cons]
    · cases isOp <;> simp [skipsConn, hc, hX, ih, List.filter_cons]

theorem broadcast_excludes_witness :
    ("b" : String) ≠ "" ∧
    broadcastTo [(1, "a", true), (2, "b", true), (3, "c", false)] (some "b") "m"
      = ([((1 : Nat), ("a", true)), (2, ("b", true)), (3, ("c", false))].filter
          (fun e => !(e.2.1 == "b") && e.2.2)).map (fun e => (e.1, "m")) :=
  ⟨by decide, broadcast_excludes [(1, "a", true), (2, "b", true), (3, "c", false)] "b" "m"
    (by decide)⟩

/-! ## C9 -/

/-- C9: a `join` stores numeric coordinates: each of `x`/`z` becomes the
parsed payload number when that number is nonzero, and `0` when the
field is absent, coerces to `NaN`, or is the number `0` (so a `join`
never stores a non-numeric coordinate). -/
theorem join_coords_numeric (st : ServerState) (sock : Nat) (me : String)
    (px pz : Option ℚ) (pn : Option String)
    (h : mapGet st.socketToId sock = some me) (hme : me ≠ "") :
    (handleMsg st sock (some (Msg.join px pz pn))).1.players
      = mapSet st.players me ⟨numOr px 0, numOr pz 0, clampName pn⟩ ∧
    numOr none 0 = 0 ∧ numOr (some 0) 0 = 0 ∧ (∀ q : ℚ, q ≠ 0 → numOr (some q) 0 = q) := by
  refine ⟨?_, rfl, by simp [numOr], fun q hq => by simp [numOr, hq]⟩
  rw [handleMsg_resolved st sock me _ h hme, handleParsed]

theorem join_coords_numeric_witness :
    mapGet (⟨[], [(1, "a")], []⟩ : ServerState).socketToId 1 = some "a" ∧ ("a" : String) ≠ "" ∧
    ((handleMsg ⟨[], [(1, "a")], []⟩ 1 (some (Msg.join (some 3) none (some "Ann")))).1.players
        = mapSet [] "a" ⟨numOr (some 3) 0, numOr none 0, clampName (some "Ann")⟩ ∧
      numOr none 0 = 0 ∧ numOr (some 0) 0 = 0 ∧
      (∀ q : ℚ, q ≠ 0 → numOr (some q) 0 = q)) :=
  ⟨by decide, by decide,
    join_coords_numeric ⟨[], [(1, "a")], []⟩ 1 "a" (some 3) none (some "Ann")
      (by decide) (by decide)⟩

/-! ## C8 -/

/-- C8: for `join` and `name` events the stored and relayed display name
is the payload name truncated to its first 20 characters, and an absent
or empty payload name resolves to `"Player"`. -/
theorem display_name_clamped (st : ServerState) (sock : Nat) (me : String)
    (pn : Option String)
    (h : mapGet st.socketToId sock = some me) (hme : me ≠ "") :
    (handleMsg st sock (some (Msg.name pn))).2 = [Out.nameB me (clampName pn) none] ∧
    (∀ r, mapGet st.players me = some r →
      mapGet (handleMsg st sock (some (Msg.name pn))).1.players me
        = some ⟨r.x, r.z, clampName pn⟩) ∧
    (∀ px pz, mapGet (handleMsg st sock (some (Msg.join px pz pn))).1.players me
        = some ⟨numOr px 0, numOr pz 0, clampName pn⟩) ∧
    clampName none = "Player" ∧ clampName (some "") = "Player" ∧
    (∀ s : String, s ≠ "" → clampName (some s) = s.take 20) := by
  refine ⟨?_, ?_, ?_, rfl, rfl, fun s hs => by simp [clampName, jsStrOr, hs]⟩
  · rw [handleMsg_resolved st sock me _ h hme, handleParsed]
  · intro r hr
    rw [handleMsg_resolved st sock me _ h hme, handleParsed]
    simp only [hr]
    exact mapGet_set_self st.players me _
  · intro px pz
    rw [handleMsg_resolved st sock me _ h hme, handleParsed]
    exact mapGet_set_self st.players me _

set_option maxRecDepth 10000 in
theorem display_name_clamped_witness :
    mapGet (⟨[], [(1, "a")], []⟩ : ServerState).socketToId 1 = some "a" ∧
    ("a" : String) ≠ "" ∧
    ((handleMsg ⟨[], [(1, "a")], []⟩ 1 (some (Msg.name (some "abcdefghijklmnopqrstuvwxy")))).2
        = [Out.nameB "a" (clampName (some "abcdefghijklmnopqrstuvwxy")) none] ∧
      (∀ r, mapGet (⟨[], [(1, "a")], []⟩ : ServerState).players "a" = some r →
        mapGet (handleMsg ⟨[], [(1, "a")], []⟩ 1
            (some (Msg.name (some "abcdefghijklmnopqrstuvwxy")))).1.players "a"
          = some ⟨r.x, r.z, clampName (some "abcdefghijklmnopqrstuvwxy")⟩) ∧
      (∀ px pz, mapGet (handleMsg ⟨[], [(1, "a")], []⟩ 1
            (some (Msg.join px pz (some "abcdefghijklmnopqrstuvwxy")))).1.players "a"
          = some ⟨numOr px 0, numOr pz 0, clampName (some "abcdefghijklmnopqrstuvwxy")⟩) ∧
      clampName none = "Player" ∧ clampName (some "") = "Player" ∧
      (∀ s : String, s ≠ "" → clampName (some s) = s.take 20)) ∧
    clampName (some "abcdefghijklmnopqrstuvwxy") = "abcdefghijklmnopqrst" :=
  ⟨by decide, by decide,
    display_name_clamped ⟨[], [(1, "a")], []⟩ 1 "a" (some "abcdefghijklmnopqrstuvwxy")
      (by decide) (by decide),
    by decide⟩

/-! ## C1 -/

/-- C1 counterexample: a joined player at `x = 5` sends a `state` frame
whose `x` is the valid number `0`; the claim requires the stored `x` to
become `0`, but the code's `Number(p.x) || rec.x` treats `0` as falsy
and keeps `5`. -/
theorem state_zero_keeps_prior :
    mapGet ((handleMsg ⟨[("a", ⟨5, 7, "Ann"⟩)], [(1, "a")], [("a", 0)]⟩ 1
        (some (Msg.state (some 0) none))).1.players) "a" = some ⟨5, 7, "Ann"⟩ ∧
    ((5 : ℚ) ≠ 0) := by
  constructor
  · rfl
  · decide

/-- C1 amended: for a `state` event from a session with a Player record,
each coordinate is updated to the incoming payload value exactly when
that value parses to a valid *nonzero* number; an invalid, missing, or
zero-valued payload leaves the prior coordinate unchanged (in
particular, sending the valid number `0` does not store `0`). -/
theorem state_update_semantics (st : ServerState) (sock : Nat) (me : String)
    (r : Player) (px pz : Option ℚ)
    (h : mapGet st.socketToId sock = some me) (hme : me ≠ "")
    (hr : mapGet st.players me = some r) :
    (handleMsg st sock (some (Msg.state px pz))).1.players
      = mapSet st.players me ⟨numOr px r.x, numOr pz r.z, r.pname⟩ ∧
    (handleMsg st sock (some (Msg.state px pz))).2
      = [Out.stateB me (numOr px r.x) (numOr pz r.z) (some me)] ∧
    numOr none r.x = r.x ∧ numOr (some 0) r.x = r.x ∧
    (∀ q : ℚ, q ≠ 0 → numOr (some q) r.x = q) := by
  refine ⟨?_, ?_, rfl, by simp [numOr], fun q hq => by simp [numOr, hq]⟩
  · rw [handleMsg_resolved st sock me _ h hme, handleParsed]
    simp only [hr]
  · rw [handleMsg_resolved st sock me _ h hme, handleParsed]
    simp only [hr]

theorem state_update_semantics_witness :
    mapGet (⟨[("a", ⟨5, 7, "Ann"⟩)], [(1, "a")], []⟩ : ServerState).socketToId 1 = some "a" ∧
    ("a" : String) ≠ "" ∧
    mapGet (⟨[("a", ⟨5, 7, "Ann"⟩)], [(1, "a")], []⟩ : ServerState).players "a"
      = some ⟨5, 7, "Ann"⟩ ∧
    ((handleMsg ⟨[("a", ⟨5, 7, "Ann"⟩)], [(1, "a")], []⟩ 1
        (some (Msg.state (some 0) (some 9)))).1.players
      = mapSet [("a", ⟨5, 7, "Ann"⟩)] "a" ⟨numOr (some 0) 5, numOr (some 9) 7, "Ann"⟩ ∧
    (handleMsg ⟨[("a", ⟨5, 7, "Ann"⟩)], [(1, "a")], []⟩ 1
        (some (Msg.state (some 0) (some 9)))).2
      = [Out.stateB "a" (numOr (some 0) 5) (numOr (some 9) 7) (some "a")] ∧
    numOr none 5 = 5 ∧ numOr (some 0) 5 = 5 ∧
    (∀ q : ℚ, q ≠ 0 → numOr (some q) 5 = q)) :=
  ⟨by decide, by decide, by decide,
    state_update_semantics ⟨[("a", ⟨5, 7, "Ann"⟩)], [(1, "a")], []⟩ 1 "a" ⟨5, 7, "Ann"⟩
      (some 0) (some 9) (by decide) (by decide) (by decide)⟩

/-! ## C2 -/

/-- C2 counterexample: a session that never sent `join` acquires a
ScoreEntry by sending `score`; on disconnect the claim requires its
ScoreEntry to be purged and `remove` broadcast, but the close handler
guards both on `players.has(id)` and so leaves the ScoreEntry in place
and broadcasts nothing. -/
theorem close_leaks_scoreentry :
    (handleClose (runEvs initState
        [Ev.conn 1 "a", Ev.msg 1 (some (Msg.score none none))]) 1).1.scores
      = [("a", 1)] ∧
    (handleClose (runEvs initState
        [Ev.conn 1 "a", Ev.msg 1 (some (Msg.score none none))]) 1).2 = [] := by
  constructor
  · rfl
  · rfl

/-- C2 amended: on disconnect the socket association is always removed;
when the session has a Player record, the Player and ScoreEntry are both
purged and `remove` (carrying the id) is broadcast in the same atomic
step; a session holding a ScoreEntry but no Player record (one that
never sent `join`) keeps its ScoreEntry and no `remove` is broadcast. -/
theorem close_cleanup (st : ServerState) (sock : Nat) (cid : String)
    (h : mapGet st.socketToId sock = some cid) (hne : cid ≠ "") :
    mapGet (handleClose st sock).1.socketToId sock = none ∧
    (mapHas st.players cid = true →
      (handleClose st sock).1.players = mapDelete st.players cid ∧
      (handleClose st sock).1.scores = mapDelete st.scores cid ∧
      (handleClose st sock).2 = [Out.removeB cid none]) ∧
    (mapHas st.players cid = false →
      (handleClose st sock).1.players = st.players ∧
      (handleClose st sock).1.scores = st.scores ∧
      (handleClose st sock).2 = []) := by
  rw [handleClose]
  simp only [h]
  by_cases hp : mapHas st.players cid = true
  · rw [if_pos ⟨hne, hp⟩]
    exact ⟨mapGet_delete_self st.socketToId sock, fun _ => ⟨rfl, rfl, rfl⟩,
      fun hc => absurd hp (by simp [hc])⟩
  · rw [if_neg (fun hc => hp hc.2)]
    exact ⟨mapGet_delete_self st.socketToId sock, fun hc => absurd hc hp,
      fun _ => ⟨rfl, rfl, rfl⟩⟩

theorem close_cleanup_witness :
    mapGet (⟨[("a", ⟨1, 2, "Ann"⟩)], [(1, "a")], [("a", 3)]⟩ : ServerState).socketToId 1
      = some "a" ∧
    ("a" : String) ≠ "" ∧
    (mapGet (handleClose ⟨[("a", ⟨1, 2, "Ann"⟩)], [(1, "a")], [("a", 3)]⟩ 1).1.socketToId 1
        = none ∧
      (mapHas (⟨[("a", ⟨1, 2, "Ann"⟩)], [(1, "a")], [("a", 3)]⟩ : ServerState).players "a"
          = true →
        (handleClose ⟨[("a", ⟨1, 2, "Ann"⟩)], [(1, "a")], [("a", 3)]⟩ 1).1.players
          = mapDelete [("a", ⟨1, 2, "Ann"⟩)] "a" ∧
        (handleClose ⟨[("a", ⟨1, 2, "Ann"⟩)], [(1, "a")], [("a", 3)]⟩ 1).1.scores
          = mapDelete [("a", 3)] "a" ∧
        (handleClose ⟨[("a", ⟨1, 2, "Ann"⟩)], [(1, "a")], [("a", 3)]⟩ 1).2
          = [Out.removeB "a" none]) ∧
      (mapHas (⟨[("a", ⟨1, 2, "Ann"⟩)], [(1, "a")], [("a", 3)]⟩ : ServerState).players "a"
          = false →
        (handleClose ⟨[("a", ⟨1, 2, "Ann"⟩)], [(1, "a")], [("a", 3)]⟩ 1).1.players
          = [("a", ⟨1, 2, "Ann"⟩)] ∧
        (handleClose ⟨[("a", ⟨1, 2, "Ann"⟩)], [(1, "a")], [("a", 3)]⟩ 1).1.scores
          = [("a", 3)] ∧
        (handleClose ⟨[("a", ⟨1, 2, "Ann"⟩)], [(1, "a")], [("a", 3)]⟩ 1).2 = [])) :=
  ⟨by decide, by decide,
    close_cleanup ⟨[("a", ⟨1, 2, "Ann"⟩)], [(1, "a")], [("a", 3)]⟩ 1 "a"
      (by decide) (by decide)⟩

/-! ## C6 -/

/-- C6: after a `reset` event the scores map holds exactly the session
ids present in the players map, each mapped to `0`: every joined
player's score is exactly `0` and score entries not backed by a Player
record are gone. -/
theorem reset_scores_match_players (st : ServerState) (sock : Nat) (me : String)
    (h : mapGet st.socketToId sock = some me) (hme : me ≠ "") :
    (∀ i, mapGet (handleMsg st sock (some Msg.reset)).1.scores i
        = if i ∈ mapKeys st.players then some 0 else none) ∧
    (handleMsg st sock (some Msg.reset)).1.players = st.players ∧
    (handleMsg st sock (some Msg.reset)).2 = [Out.resetB none] := by
  rw [handleMsg_resolved st sock me _ h hme, handleParsed]
  refine ⟨fun i => ?_, rfl, rfl⟩
  rw [resetFold_get]
  by_cases hi : i ∈ mapKeys st.players
  · rw [if_pos hi, if_pos hi]
  · rw [if_neg hi, if_neg hi, mapGet]

theorem reset_scores_match_players_witness :
    mapGet (⟨[("a", ⟨1, 2, "Ann"⟩)], [(1, "a")], [("a", 4), ("ghost", 9)]⟩
        : ServerState).socketToId 1 = some "a" ∧
    ("a" : String) ≠ "" ∧
    ((∀ i, mapGet (handleMsg ⟨[("a", ⟨1, 2, "Ann"⟩)], [(1, "a")], [("a", 4), ("ghost", 9)]⟩
          1 (some Msg.reset)).1.scores i
        = if i ∈ mapKeys ([("a", ⟨1, 2, "Ann"⟩)] : JMap String Player) then some 0 else none) ∧
      (handleMsg ⟨[("a", ⟨1, 2, "Ann"⟩)], [(1, "a")], [("a", 4), ("ghost", 9)]⟩
          1 (some Msg.reset)).1.players = [("a", ⟨1, 2, "Ann"⟩)] ∧
      (handleMsg ⟨[("a", ⟨1, 2, "Ann"⟩)], [(1, "a")], [("a", 4), ("ghost", 9)]⟩
          1 (some Msg.reset)).2 = [Out.resetB none]) :=
  ⟨by decide, by decide,
    reset_scores_match_players ⟨[("a", ⟨1, 2, "Ann"⟩)], [(1, "a")], [("a", 4), ("ghost", 9)]⟩
      1 "a" (by decide) (by decide)⟩

/-! ## C7 -/

/-- State transition of one `score` event (outputs discarded), used to
iterate the event. -/
def scoreStep (sock : Nat) (pid : Option String) (idx : Option Int)
    (s : ServerState) : ServerState :=
  (handleMsg s sock (some (Msg.score pid idx))).1

theorem score_step_eq (st : ServerState) (sock : Nat) (me : String)
    (pid : Option String) (idx : Option Int)
    (h : mapGet st.socketToId sock = some me) (hme : me ≠ "") :
    handleMsg st sock (some (Msg.score pid idx))
      = (⟨st.players, st.socketToId,
            bumpScore st.scores (scoreTarget st.players me pid) 1⟩,
         [Out.scoreB (scoreTarget st.players me pid)
            (displayName st.players (scoreTarget st.players me pid)) idx none]) := by
  rw [handleMsg_resolved st sock me _ h hme, handleParsed]

theorem score_iter (st : ServerState) (sock : Nat) (me : String)
    (pid : Option String) (idx : Option Int)
    (h : mapGet st.socketToId sock = some me) (hme : me ≠ "") (N : Nat) :
    ((scoreStep sock pid idx)^[N] st).players = st.players ∧
    ((scoreStep sock pid idx)^[N] st).socketToId = st.socketToId ∧
    (1 ≤ N → mapGet ((scoreStep sock pid idx)^[N] st).scores
        (scoreTarget st.players me pid)
      = some ((mapGet st.scores (scoreTarget st.players me pid)).getD 0 + (N : Int))) := by
  induction N with
  | zero => exact ⟨rfl, rfl, fun hN => absurd hN (by simp)⟩
  | succ n ih =>
    obtain ⟨hp, hs, hsc⟩ := ih
    rw [Function.iterate_succ_apply']
    have hstep := score_step_eq ((scoreStep sock pid idx)^[n] st) sock me pid idx
      (by rw [hs]; exact h) hme
    have hone : scoreStep sock pid idx ((scoreStep sock pid idx)^[n] st)
        = ⟨((scoreStep sock pid idx)^[n] st).players,
           ((scoreStep sock pid idx)^[n] st).socketToId,
           bumpScore ((scoreStep sock pid idx)^[n] st).scores
             (scoreTarget ((scoreStep sock pid idx)^[n] st).players me pid) 1⟩ := by
      rw [scoreStep, hstep]
    rw [hone, hp, hs]
    refine ⟨rfl, rfl, fun _ => ?_⟩
    rw [bumpScore_get_self]
    rcases Nat.eq_zero_or_pos n with hn | hn
    · subst hn
      rw [Function.iterate_zero_apply] at *
      push_cast
      ring_nf
    · rw [hsc hn]
      simp only [Option.getD_some]
      push_cast
      ring_nf

/-- C7: a `score` event credits the payload's target id when that id has
a Player record and otherwise the sender's own session id; the target's
counter goes up by exactly 1 (N consecutive such events starting with no
entry yield exactly N); and a `score` broadcast carrying the target's id
and current display name goes out with no exclusion, reaching every open
connection including the sender. -/
theorem score_event_semantics (st : ServerState) (sock : Nat) (me : String)
    (pid : Option String) (idx : Option Int)
    (h : mapGet st.socketToId sock = some me) (hme : me ≠ "")
    (hempty : mapHas st.players "" = false) :
    (∀ t, pid = some t → mapHas st.players t = true → scoreTarget st.players me pid = t) ∧
    (∀ t, pid = some t → mapHas st.players t = false → scoreTarget st.players me pid = me) ∧
    (pid = none → scoreTarget st.players me pid = me) ∧
    handleMsg st sock (some (Msg.score pid idx))
      = (⟨st.players, st.socketToId,
            bumpScore st.scores (scoreTarget st.players me pid) 1⟩,
         [Out.scoreB (scoreTarget st.players me pid)
            (displayName st.players (scoreTarget st.players me pid)) idx none]) ∧
    mapGet (handleMsg st sock (some (Msg.score pid idx))).1.scores
        (scoreTarget st.players me pid)
      = some ((mapGet st.scores (scoreTarget st.players me pid)).getD 0 + 1) ∧
    (mapGet st.scores (scoreTarget st.players me pid) = none →
      ∀ N : Nat, 1 ≤ N →
        mapGet ((scoreStep sock pid idx)^[N] st).scores (scoreTarget st.players me pid)
          = some (N : Int)) ∧
    (∀ reg bytes, broadcastTo reg none bytes
        = (reg.filter (fun e => e.2.2)).map (fun e => (e.1, bytes))) := by
  have hstep := score_step_eq st sock me pid idx h hme
  refine ⟨?_, ?_, fun hn => by subst hn; rfl, hstep, ?_, ?_,
    fun reg bytes => broadcast_none reg bytes⟩
  · intro t ht hhas
    have htne : t ≠ "" := by
      intro hc
      rw [hc] at hhas
      rw [hhas] at hempty
      exact absurd hempty (by simp)
    rw [ht, scoreTarget, if_pos ⟨htne, hhas⟩]
  · intro t ht hhas
    rw [ht, scoreTarget]
    rw [if_neg (fun hc => by rw [hc.2] at hhas; exact absurd hhas (by simp))]
  · rw [hstep]
    exact bumpScore_get_self st.scores (scoreTarget st.players me pid)
  · intro hnone N hN
    have := (score_iter st sock me pid idx h hme N).2.2 hN
    rw [hnone] at this
    simpa using this

theorem score_event_semantics_witness :
    mapGet (⟨[("b", ⟨1, 2, "Bob"⟩)], [(1, "a")], []⟩ : ServerState).socketToId 1
      = some "a" ∧
    ("a" : String) ≠ "" ∧
    mapHas (⟨[("b", ⟨1, 2, "Bob"⟩)], [(1, "a")], []⟩ : ServerState).players "" = false ∧
    ((∀ t, (some "b" : Option String) = some t →
        mapHas ([("b", ⟨1, 2, "Bob"⟩)] : JMap String Player) t = true →
        scoreTarget [("b", ⟨1, 2, "Bob"⟩)] "a" (some "b") = t) ∧
      (∀ t, (some "b" : Option String) = some t →
        mapHas ([("b", ⟨1, 2, "Bob"⟩)] : JMap String Player) t = false →
        scoreTarget [("b", ⟨1, 2, "Bob"⟩)] "a" (some "b") = "a") ∧
      ((some "b" : Option String) = none →
        scoreTarget [("b", ⟨1, 2, "Bob"⟩)] "a" (some "b") = "a") ∧
      handleMsg ⟨[("b", ⟨1, 2, "Bob"⟩)], [(1, "a")], []⟩ 1
          (some (Msg.score (some "b") none))
        = (⟨[("b", ⟨1, 2, "Bob"⟩)], [(1, "a")],
              bumpScore [] (scoreTarget [("b", ⟨1, 2, "Bob"⟩)] "a" (some "b")) 1⟩,
           [Out.scoreB (scoreTarget [("b", ⟨1, 2, "Bob"⟩)] "a" (some "b"))
              (displayName [("b", ⟨1, 2, "Bob"⟩)]
                (scoreTarget [("b", ⟨1, 2, "Bob"⟩)] "a" (some "b"))) none none]) ∧
      mapGet (handleMsg ⟨[("b", ⟨1, 2, "Bob"⟩)], [(1, "a")], []⟩ 1
          (some (Msg.score (some "b") none))).1.scores
          (scoreTarget [("b", ⟨1, 2, "Bob"⟩)] "a" (some "b"))
        = some ((mapGet ([] : JMap String Int)
            (scoreTarget [("b", ⟨1, 2, "Bob"⟩)] "a" (some "b"))).getD 0 + 1) ∧
      (mapGet ([] : JMap String Int) (scoreTarget [("b", ⟨1, 2, "Bob"⟩)] "a" (some "b"))
          = none →
        ∀ N : Nat, 1 ≤ N →
          mapGet ((scoreStep 1 (some "b") none)^[N]
              (⟨[("b", ⟨1, 2, "Bob"⟩)], [(1, "a")], []⟩ : ServerState)).scores
              (scoreTarget [("b", ⟨1, 2, "Bob"⟩)] "a" (some "b"))
            = some (N : Int)) ∧
      (∀ reg bytes, broadcastTo reg none bytes
          = (reg.filter (fun e => e.2.2)).map (fun e => (e.1, bytes)))) :=
  ⟨by decide, by decide, by decide,
    score_event_semantics ⟨[("b", ⟨1, 2, "Bob"⟩)], [(1, "a")], []⟩ 1 "a" (some "b") none
      (by decide) (by decide) (by decide)⟩

/-! ## C10 -/

/-- C10: a connected session that never sent `join` sends `score` with
no target id; the server creates a ScoreEntry under that session's id
while no Player record exists, so `scores` holds a key absent from
`players`, and `snapshot()` reports the entry with display name
`"Player"`. -/
theorem never_joined_scorer :
    mapGet (runEvs initState
        [Ev.conn 1 "a", Ev.msg 1 (some (Msg.score none none))]).scores "a" = some 1 ∧
    mapGet (runEvs initState
        [Ev.conn 1 "a", Ev.msg 1 (some (Msg.score none none))]).players "a" = none ∧
    mapGet (snapshotScores (runEvs initState
        [Ev.conn 1 "a", Ev.msg 1 (some (Msg.score none none))])) "a"
      = some ⟨"Player", 1⟩ := by
  refine ⟨rfl, rfl, ?_⟩
  decide

/-! ## C5: supporting lemmas and the ghost machine -/

theorem mem_mapValues_delete_ne [DecidableEq α] (m : JMap α β) (s : α) (v : β)
    (hnd : (mapKeys m).Nodup) (hget : mapGet m s = some v) (i : β) (hi : i ≠ v) :
    i ∈ mapValues (mapDelete m s) ↔ i ∈ mapValues m := by
  induction m with
  | nil => simp [mapGet] at hget
  | cons e rest ih =>
    obtain ⟨k, w⟩ := e
    rw [mapKeys] at hnd
    by_cases hk : k = s
    · subst hk
      rw [mapGet, if_pos rfl, Option.some_inj] at hget
      rw [mapDelete, if_pos rfl,
        mapDelete_absent rest k ((mapGet_none_iff rest k).2 (List.nodup_cons.1 hnd).1)]
      subst hget
      rw [mapValues, List.mem_cons]
      simp [hi]
    · rw [mapGet, if_neg hk] at hget
      rw [mapDelete, if_neg hk, mapValues, mapValues, List.mem_cons, List.mem_cons,
        ih (List.nodup_cons.1 hnd).2 hget]

theorem get_value_not_mem_delete [DecidableEq α] (m : JMap α β) (s : α) (v : β)
    (hk : (mapKeys m).Nodup) (hv : (mapValues m).Nodup) (hget : mapGet m s = some v) :
    v ∉ mapValues (mapDelete m s) := by
  induction m with
  | nil => simp [mapGet] at hget
  | cons e rest ih =>
    obtain ⟨k, w⟩ := e
    rw [mapKeys] at hk
    rw [mapValues] at hv
    by_cases hks : k = s
    · subst hks
      rw [mapGet, if_pos rfl, Option.some_inj] at hget
      rw [mapDelete, if_pos rfl,
        mapDelete_absent rest k ((mapGet_none_iff rest k).2 (List.nodup_cons.1 hk).1)]
      subst hget
      exact (List.nodup_cons.1 hv).1
    · rw [mapGet, if_neg hks] at hget
      rw [mapDelete, if_neg hks, mapValues]
      intro hmem
      rcases List.mem_cons.1 hmem with h1 | h1
      · exact (List.nodup_cons.1 hv).1 (h1 ▸ mem_mapValues_of_get rest s v hget)
      · exact ih (List.nodup_cons.1 hk).2 (List.nodup_cons.1 hv).2 hget h1

/-- Whether an event lies in C5's alphabet: connection, `join`, or
disconnect. -/
def isC5Ev : Ev → Bool
  | .conn _ _ => true
  | .close _ => true
  | .msg _ f =>
    match f with
    | some (Msg.join _ _ _) => true
    | _ => false

/-- Spec-level ghost step: the registry together with the set of session
ids that have sent at least one `join` since connecting.  A `join` from
a registered socket marks its id joined; a disconnect clears the mark. -/
def refStep : JMap Nat String × List String → Ev → JMap Nat String × List String
  | (m, j), .conn s i => (mapSet m s i, j)
  | (m, j), .msg s f =>
    match f with
    | some (Msg.join _ _ _) =>
      match mapGet m s with
      | some i => (m, if i ∈ j then j else i :: j)
      | none => (m, j)
    | _ => (m, j)
  | (m, j), .close s =>
    match mapGet m s with
    | some i => (mapDelete m s, j.filter (fun x => x != i))
    | none => (mapDelete m s, j)

/-- Ghost run from boot. -/
def refRun (es : List Ev) : JMap Nat String × List String := es.foldl refStep ([], [])

/-- Admissible traces: every connection event carries a `newId()`
result — a nonempty identifier never produced before — on a socket
handle not currently registered. -/
inductive Admissible : List String → JMap Nat String → List Ev → Prop where
  | nil (used : List String) (m : JMap Nat String) : Admissible used m []
  | conn (used : List String) (m : JMap Nat String) (s : Nat) (i : String)
      (rest : List Ev) (h1 : i ≠ "") (h2 : i ∉ used) (h3 : mapGet m s = none)
      (h4 : Admissible (i :: used) (mapSet m s i) rest) :
      Admissible used m (Ev.conn s i :: rest)
  | msg (used : List String) (m : JMap Nat String) (s : Nat) (f : Option Msg)
      (rest : List Ev) (h : Admissible used m rest) :
      Admissible used m (Ev.msg s f :: rest)
  | close (used : List String) (m : JMap Nat String) (s : Nat) (rest : List Ev)
      (h : Admissible used (mapDelete m s) rest) :
      Admissible used m (Ev.close s :: rest)

/-- The inductive invariant for C5, relating the server state to the set
`used` of ids ever generated and the ghost joined set `j`. -/
def C5Inv (st : ServerState) (used : List String) (j : List String) : Prop :=
  (mapKeys st.socketToId).Nodup ∧
  (mapValues st.socketToId).Nodup ∧
  (∀ i ∈ mapValues st.socketToId, i ≠ "" ∧ i ∈ used) ∧
  (∀ i ∈ mapKeys st.players, i ∈ used) ∧
  (∀ i ∈ j, i ∈ used) ∧
  (∀ i, i ∈ mapKeys st.players ↔ (i ∈ mapValues st.socketToId ∧ i ∈ j))

theorem mapKeys_snapshotPlayers (st : ServerState) :
    mapKeys (snapshotPlayers st) = mapKeys st.players := by
  rw [snapshotPlayers]
  generalize st.players = l
  induction l with
  | nil => rfl
  | cons e rest ih =>
    obtain ⟨k, v⟩ := e
    rw [List.map_cons, mapKeys, mapKeys, ih]

theorem c5_aux (es : List Ev) :
    ∀ (used : List String) (st : ServerState) (j : List String),
      Admissible used st.socketToId es → (∀ e ∈ es, isC5Ev e = true) →
      C5Inv st used j →
      (es.foldl refStep (st.socketToId, j)).1 = (runEvs st es).socketToId ∧
      ∃ used2, C5Inv (runEvs st es) used2 (es.foldl refStep (st.socketToId, j)).2 := by
  induction es with
  | nil =>
    intro used st j _ _ hinv
    exact ⟨rfl, used, hinv⟩
  | cons e rest ih =>
    intro used st j hadm hres hinv
    obtain ⟨hnk, hnv, hval, hpl, hjused, hmain⟩ := hinv
    have hres' : ∀ e ∈ rest, isC5Ev e = true := fun e he => hres e (List.mem_cons_of_mem _ he)
    rw [List.foldl_cons, runEvs, List.foldl_cons, ← runEvs]
    cases e with
    | conn s i =>
      cases hadm with
      | conn _ _ _ _ _ h1 h2 h3 h4 =>
        have happ : mapSet st.socketToId s i = st.socketToId ++ [(s, i)] :=
          mapSet_absent _ s i h3
        have hsmem : s ∉ mapKeys st.socketToId := (mapGet_none_iff _ s).1 h3
        have hinotv : i ∉ mapValues st.socketToId := fun hc => h2 (hval i hc).2
        have hinv1 : C5Inv ⟨st.players, mapSet st.socketToId s i, st.scores⟩ (i :: used) j := by
          refine ⟨?_, ?_, ?_, ?_, ?_, ?_⟩
          · show (mapKeys (mapSet st.socketToId s i)).Nodup
            rw [happ, mapKeys_append]
            simp only [List.nodup_append, mapKeys]
            exact ⟨hnk, List.nodup_singleton s, by simpa using hsmem⟩
          · show (mapValues (mapSet st.socketToId s i)).Nodup
            rw [happ, mapValues_append]
            simp only [List.nodup_append, mapValues]
            exact ⟨hnv, List.nodup_singleton i, by simpa using hinotv⟩
          · show ∀ x ∈ mapValues (mapSet st.socketToId s i), x ≠ "" ∧ x ∈ i :: used
            rw [happ, mapValues_append]
            intro x hx
            rcases List.mem_append.1 hx with hx | hx
            · exact ⟨(hval x hx).1, List.mem_cons_of_mem _ (hval x hx).2⟩
            · have : x = i := by simpa [mapValues] using hx
              subst this
              exact ⟨h1, List.mem_cons_self _ _⟩
          · exact fun x hx => List.mem_cons_of_mem _ (hpl x hx)
          · exact fun x hx => List.mem_cons_of_mem _ (hjused x hx)
          · intro x
            show x ∈ mapKeys st.players ↔ x ∈ mapValues (mapSet st.socketToId s i) ∧ x ∈ j
            rw [happ, mapValues_append]
            constructor
            · intro hx
              obtain ⟨hv, hj⟩ := (hmain x).1 hx
              exact ⟨List.mem_append.2 (Or.inl hv), hj⟩
            · rintro ⟨hv, hj⟩
              rcases List.mem_append.1 hv with hv | hv
              · exact (hmain x).2 ⟨hv, hj⟩
              · have : x = i := by simpa [mapValues] using hv
                subst this
                exact absurd (hjused x hj) h2
        exact ih (i :: used) ⟨st.players, mapSet st.socketToId s i, st.scores⟩ j h4 hres' hinv1
    | msg s f =>
      cases hadm with
      | msg _ _ _ _ _ hadm' =>
        have hhead : isC5Ev (Ev.msg s f) = true := hres _ (List.mem_cons_self _ _)
        match f with
        | none => simp [isC5Ev] at hhead
        | some Msg.reset => simp [isC5Ev] at hhead
        | some Msg.other => simp [isC5Ev] at hhead
        | some (Msg.state _ _) => simp [isC5Ev] at hhead
        | some (Msg.name _) => simp [isC5Ev] at hhead
        | some (Msg.pickup _) => simp [isC5Ev] at hhead
        | some (Msg.shoot _) => simp [isC5Ev] at hhead
        | some (Msg.land _) => simp [isC5Ev] at hhead
        | some (Msg.score _ _) => simp [isC5Ev] at hhead
        | some (Msg.join px pz pn) =>
          cases hget : mapGet st.socketToId s with
          | none =>
            have hstep : stepEv st (Ev.msg s (some (Msg.join px pz pn))) = st := by
              simp [stepEv, handleMsg, hget]
            have hrstep : refStep (st.socketToId, j) (Ev.msg s (some (Msg.join px pz pn)))
                = (st.socketToId, j) := by
              simp [refStep, hget]
            rw [hstep, hrstep]
            exact ih used st j hadm' hres' ⟨hnk, hnv, hval, hpl, hjused, hmain⟩
          | some me =>
            have hmev : me ∈ mapValues st.socketToId := mem_mapValues_of_get _ s me hget
            have hmene : me ≠ "" := (hval me hmev).1
            have hmeused : me ∈ used := (hval me hmev).2
            have hstep : stepEv st (Ev.msg s (some (Msg.join px pz pn)))
                = (handleParsed st s me (Msg.join px pz pn)).1 := by
              simp [stepEv, handleMsg, hget, hmene]
            have hrstep : refStep (st.socketToId, j) (Ev.msg s (some (Msg.join px pz pn)))
                = (st.socketToId, if me ∈ j then j else me :: j) := by
              simp [refStep, hget]
            have hj' : ∀ x, (x ∈ (if me ∈ j then j else me :: j)) ↔ (x ∈ j ∨ x = me) := by
              intro x
              by_cases hmej : me ∈ j
              · rw [if_pos hmej]
                constructor
                · exact fun hx => Or.inl hx
                · rintro (hx | hx)
                  · exact hx
                  · exact hx ▸ hmej
              · rw [if_neg hmej, List.mem_cons]
                tauto
            have hinv1 : C5Inv (handleParsed st s me (Msg.join px pz pn)).1 used
                (if me ∈ j then j else me :: j) := by
              refine ⟨hnk, hnv, hval, ?_, ?_, ?_⟩
              · intro x hx
                rcases (mem_mapKeys_set st.players me x _).1 hx with hx | hx
                · exact hpl x hx
                · exact hx ▸ hmeused
              · intro x hx
                rcases (hj' x).1 hx with hx | hx
                · exact hjused x hx
                · exact hx ▸ hmeused
              · intro x
                show x ∈ mapKeys (mapSet st.players me _) ↔ _ ∧ _
                rw [mem_mapKeys_set, hj' x]
                constructor
                · rintro (hx | hx)
                  · obtain ⟨hv, hj⟩ := (hmain x).1 hx
                    exact ⟨hv, Or.inl hj⟩
                  · subst hx
                    exact ⟨hmev, Or.inr rfl⟩
                · rintro ⟨hv, hj | hj⟩
                  · exact Or.inl ((hmain x).2 ⟨hv, hj⟩)
                  · exact Or.inr hj
            rw [hstep, hrstep]
            exact ih used (handleParsed st s me (Msg.join px pz pn)).1
              (if me ∈ j then j else me :: j) hadm' hres' hinv1
    | close s =>
      cases hadm with
      | close _ _ _ _ hadm' =>
        cases hget : mapGet st.socketToId s with
        | none =>
          have hstep : stepEv st (Ev.close s)
              = ⟨st.players, mapDelete st.socketToId s, st.scores⟩ := by
            simp [stepEv, handleClose, hget]
          have hrstep : refStep (st.socketToId, j) (Ev.close s)
              = (mapDelete st.socketToId s, j) := by
            simp [refStep, hget]
          have hdel : mapDelete st.socketToId s = st.socketToId :=
            mapDelete_absent _ s hget
          have hinv1 : C5Inv ⟨st.players, mapDelete st.socketToId s, st.scores⟩ used j := by
            rw [hdel]
            exact ⟨hnk, hnv, hval, hpl, hjused, hmain⟩
          rw [hstep, hrstep]
          exact ih used ⟨st.players, mapDelete st.socketToId s, st.scores⟩ j hadm' hres' hinv1
        | some cid =>
          have hcv : cid ∈ mapValues st.socketToId := mem_mapValues_of_get _ s cid hget
          have hcne : cid ≠ "" := (hval cid hcv).1
          have hrstep : refStep (st.socketToId, j) (Ev.close s)
              = (mapDelete st.socketToId s, j.filter (fun x => x != cid)) := by
            simp [refStep, hget]
          have hjf : ∀ x, (x ∈ j.filter (fun y => y != cid)) ↔ (x ∈ j ∧ x ≠ cid) := by
            intro x
            rw [List.mem_filter]
            simp
          have hvdel : ∀ x, x ≠ cid →
              (x ∈ mapValues (mapDelete st.socketToId s) ↔ x ∈ mapValues st.socketToId) :=
            fun x hx => mem_mapValues_delete_ne st.socketToId s cid hnk hget x hx
          have hcnotdel : cid ∉ mapValues (mapDelete st.socketToId s) :=
            get_value_not_mem_delete st.socketToId s cid hnk hnv hget
          have hnk' : (mapKeys (mapDelete st.socketToId s)).Nodup :=
            List.Nodup.sublist (mapKeys_delete_sublist st.socketToId s) hnk
          have hnv' : (mapValues (mapDelete st.socketToId s)).Nodup :=
            List.Nodup.sublist (mapValues_delete_sublist st.socketToId s) hnv
          have hval' : ∀ x ∈ mapValues (mapDelete st.socketToId s), x ≠ "" ∧ x ∈ used :=
            fun x hx => hval x ((mapValues_delete_sublist st.socketToId s).subset hx)
          by_cases hp : mapHas st.players cid = true
          · have hstep : stepEv st (Ev.close s)
                = ⟨mapDelete st.players cid, mapDelete st.socketToId s,
                    mapDelete st.scores cid⟩ := by
              simp [stepEv, handleClose, hget, hcne, hp]
            have hinv1 : C5Inv ⟨mapDelete st.players cid, mapDelete st.socketToId s,
                mapDelete st.scores cid⟩ used (j.filter (fun x => x != cid)) := by
              refine ⟨hnk', hnv', hval', ?_, ?_, ?_⟩
              · intro x hx
                exact hpl x ((mem_mapKeys_delete st.players cid x).1 hx).1
              · intro x hx
                exact hjused x ((hjf x).1 hx).1
              · intro x
                show x ∈ mapKeys (mapDelete st.players cid) ↔ _ ∧ _
                rw [mem_mapKeys_delete, hjf x]
                by_cases hx : x = cid
                · subst hx
                  constructor
                  · rintro ⟨_, hc⟩
                    exact absurd rfl hc
                  · rintro ⟨_, _, hc⟩
                    exact absurd rfl hc
                · rw [hvdel x hx]
                  constructor
                  · rintro ⟨h1, _⟩
                    obtain ⟨hv, hj⟩ := (hmain x).1 h1
                    exact ⟨hv, hj, hx⟩
                  · rintro ⟨hv, hj, _⟩
                    exact ⟨(hmain x).2 ⟨hv, hj⟩, hx⟩
            rw [hstep, hrstep]
            exact ih used ⟨mapDelete st.players cid, mapDelete st.socketToId s,
              mapDelete st.scores cid⟩ (j.filter (fun x => x != cid)) hadm' hres' hinv1
          · have hp' : mapHas st.players cid = false := by
              cases hmb : mapHas st.players cid with
              | false => rfl
              | true => exact absurd hmb hp
            have hck : cid ∉ mapKeys st.players := by
              intro hc
              rw [← mapGet_isSome_iff] at hc
              rw [mapHas] at hp'
              rw [hp'] at hc
              exact absurd hc (by simp)
            have hcj : cid ∉ j := by
              intro hc
              exact hck ((hmain cid).2 ⟨hcv, hc⟩)
            have hstep : stepEv st (Ev.close s)
                = ⟨st.players, mapDelete st.socketToId s, st.scores⟩ := by
              simp [stepEv, handleClose, hget, hp']
            have hinv1 : C5Inv ⟨st.players, mapDelete st.socketToId s, st.scores⟩ used
                (j.filter (fun x => x != cid)) := by
              refine ⟨hnk', hnv', hval', hpl, ?_, ?_⟩
              · intro x hx
                exact hjused x ((hjf x).1 hx).1
              · intro x
                show x ∈ mapKeys st.players ↔ _ ∧ _
                rw [hjf x]
                by_cases hx : x = cid
                · subst hx
                  constructor
                  · intro hc
                    exact absurd hc hck
                  · rintro ⟨_, _, hc⟩
                    exact absurd rfl hc
                · rw [hvdel x hx]
                  constructor
                  · intro h1
                    obtain ⟨hv, hj⟩ := (hmain x).1 h1
                    exact ⟨hv, hj, hx⟩
                  · rintro ⟨hv, hj, _⟩
                    exact (hmain x).2 ⟨hv, hj⟩
            rw [hstep, hrstep]
            exact ih used ⟨st.players, mapDelete st.socketToId s, st.scores⟩
              (j.filter (fun x => x != cid)) hadm' hres' hinv1

/-- C5: over every admissible sequence of connection, `join`, and
disconnect events, the key set of `snapshot().players` equals the set of
session ids currently registered in the socket-to-id map that have sent
at least one `join` since connecting. -/
theorem snapshot_players_joined (es : List Ev)
    (hadm : Admissible [] [] es) (hres : ∀ e ∈ es, isC5Ev e = true) :
    ∀ i, i ∈ mapKeys (snapshotPlayers (runEvs initState es)) ↔
      (i ∈ mapValues (runEvs initState es).socketToId ∧ i ∈ (refRun es).2) := by
  have hinv0 : C5Inv initState [] [] := by
    refine ⟨List.nodup_nil, List.nodup_nil, ?_, ?_, ?_, ?_⟩ <;>
      simp [initState, mapValues, mapKeys]
  obtain ⟨heq, used2, hinv2⟩ := c5_aux es [] initState [] hadm hres hinv0
  intro i
  rw [mapKeys_snapshotPlayers]
  exact hinv2.2.2.2.2.2 i

theorem snapshot_players_joined_witness :
    (("a" : String) ∈ mapKeys (snapshotPlayers (runEvs initState
        [Ev.conn 1 "a", Ev.msg 1 (some (Msg.join none none none)), Ev.conn 2 "b",
          Ev.close 2])) ↔
      (("a" : String) ∈ mapValues (runEvs initState
          [Ev.conn 1 "a", Ev.msg 1 (some (Msg.join none none none)), Ev.conn 2 "b",
            Ev.close 2]).socketToId ∧
        ("a" : String) ∈ (refRun [Ev.conn 1 "a", Ev.msg 1 (some (Msg.join none none none)),
          Ev.conn 2 "b", Ev.close 2]).2)) ∧
    (("b" : String) ∈ mapKeys (snapshotPlayers (runEvs initState
        [Ev.conn 1 "a", Ev.msg 1 (some (Msg.join none none none)), Ev.conn 2 "b",
          Ev.close 2])) ↔
      (("b" : String) ∈ mapValues (runEvs initState
          [Ev.conn 1 "a", Ev.msg 1 (some (Msg.join none none none)), Ev.conn 2 "b",
            Ev.close 2]).socketToId ∧
        ("b" : String) ∈ (refRun [Ev.conn 1 "a", Ev.msg 1 (some (Msg.join none none none)),
          Ev.conn 2 "b", Ev.close 2]).2)) :=
  ⟨snapshot_players_joined
    [Ev.conn 1 "a", Ev.msg 1 (some (Msg.join none none none)), Ev.conn 2 "b", Ev.close 2]
    (Admissible.conn _ _ 1 "a" _ (by decide) (by decide) (by decide)
      (Admissible.msg _ _ 1 _ _
        (Admissible.conn _ _ 2 "b" _ (by decide) (by decide) (by decide)
          (Admissible.close _ _ 2 _ (Admissible.nil _ _)))))
    (by decide) "a",
   snapshot_players_joined
    [Ev.conn 1 "a", Ev.msg 1 (some (Msg.join none none none)), Ev.conn 2 "b", Ev.close 2]
    (Admissible.conn _ _ 1 "a" _ (by decide) (by decide) (by decide)
      (Admissible.msg _ _ 1 _ _
        (Admissible.conn _ _ 2 "b" _ (by decide) (by decide) (by decide)
          (Admissible.close _ _ 2 _ (Admissible.nil _ _)))))
    (by decide) "b"⟩

end EpleShopper
